import Mathlib

/-!
Shallow embedding of the IMP compiler core (parser, bytecode program,
runtime primitives) and proofs about it.

The parser functions follow src/parser.cpp; the bytecode reader follows
src/program.h; the runtime primitive follows src/runtime.cpp.  Parts of
the repository that are only declared elsewhere (the lexer's Token type,
the Interp stack accessors, ParseExpr's body) are modelled from the spec,
as noted on each definition.
-/

namespace Imp

/-- Source location (source name, line, column), as in the spec's data model;
attached to every token and propagated into diagnostics. -/
structure Location where
  Name : String
  Line : Nat
  Column : Nat
deriving DecidableEq, Repr

/-- Payload-free token kind, mirroring Token::Kind of the lexer. -/
inductive Tag where
  | FUNC | IDENT | LPAREN | RPAREN | COLON | COMMA | EQUAL | STRING
  | LET | LBRACE | RBRACE | RETURN | WHILE | IF | ELSE | SEMI
  | INT | MUL | PLUS | SUB | EQUALS | END
deriving DecidableEq, Repr

/-- Modelled from the spec: a token is a tagged union over kinds, carrying
an identifier string, a string literal, or an unsigned 64-bit integer
payload depending on the kind (the lexer's Token type is not under src/). -/
inductive TokenData where
  | FUNC | LPAREN | RPAREN | COLON | COMMA | EQUAL | LET | LBRACE | RBRACE
  | RETURN | WHILE | IF | ELSE | SEMI | MUL | PLUS | SUB | EQUALS | END
  | IDENT (s : String)
  | STRING (s : String)
  | INT (n : Nat)
deriving DecidableEq, Repr

/-- The kind of a token datum, forgetting the payload. -/
def TokenData.tag : TokenData → Tag
  | .FUNC => .FUNC
  | .LPAREN => .LPAREN
  | .RPAREN => .RPAREN
  | .COLON => .COLON
  | .COMMA => .COMMA
  | .EQUAL => .EQUAL
  | .LET => .LET
  | .LBRACE => .LBRACE
  | .RBRACE => .RBRACE
  | .RETURN => .RETURN
  | .WHILE => .WHILE
  | .IF => .IF
  | .ELSE => .ELSE
  | .SEMI => .SEMI
  | .MUL => .MUL
  | .PLUS => .PLUS
  | .SUB => .SUB
  | .EQUALS => .EQUALS
  | .END => .END
  | .IDENT _ => .IDENT
  | .STRING _ => .STRING
  | .INT _ => .INT

/-- A token: kind-with-payload plus its source location. -/
structure Token where
  data : TokenData
  loc : Location
deriving DecidableEq, Repr

/-- Kind of a token. -/
def Token.tag (t : Token) : Tag := t.data.tag

/-- Token::Is(kind): kind-based identity test. -/
def Token.Is (t : Token) (k : Tag) : Bool := t.tag == k

/-- Modelled from the spec: payload access is only valid for the matching
kind and fails otherwise (precondition violation, not a recoverable error).
Token::GetIdent. -/
def Token.GetIdent (t : Token) : Option String :=
  match t.data with
  | .IDENT s => some s
  | _ => none

/-- Modelled from the spec: Token::GetString, valid only on STRING tokens. -/
def Token.GetString (t : Token) : Option String :=
  match t.data with
  | .STRING s => some s
  | _ => none

/-- Modelled from the spec: Token::GetInt, valid only on INT tokens. -/
def Token.GetInt (t : Token) : Option Nat :=
  match t.data with
  | .INT n => some n
  | _ => none

/-- Modelled from the spec: token kinds render by name in diagnostics
(operator<< for Token::Kind lives in the lexer, not under src/). -/
def tagStr : Tag → String
  | .FUNC => "FUNC"
  | .IDENT => "IDENT"
  | .LPAREN => "LPAREN"
  | .RPAREN => "RPAREN"
  | .COLON => "COLON"
  | .COMMA => "COMMA"
  | .EQUAL => "EQUAL"
  | .STRING => "STRING"
  | .LET => "LET"
  | .LBRACE => "LBRACE"
  | .RBRACE => "RBRACE"
  | .RETURN => "RETURN"
  | .WHILE => "WHILE"
  | .IF => "IF"
  | .ELSE => "ELSE"
  | .SEMI => "SEMI"
  | .INT => "INT"
  | .MUL => "MUL"
  | .PLUS => "PLUS"
  | .SUB => "SUB"
  | .EQUALS => "EQUALS"
  | .END => "END"

/-- Modelled from the spec: a token renders as its kind in diagnostics
(operator<< for Token lives in the lexer, not under src/). -/
def tokenStr (t : Token) : String := tagStr t.tag

/-- Modelled from the spec's token source contract: current() returns the
lookahead token without consuming, advancing consumes one token, and
end-of-stream is a distinguishable token (here the sticky endTok). -/
structure LexState where
  toks : List Token
  endTok : Token
deriving DecidableEq, Repr

/-- The current (lookahead) token. -/
def LexState.current (s : LexState) : Token := s.toks.headD s.endTok

/-- lexer_.Next(): consume one token; the end token is sticky. -/
def LexState.next (s : LexState) : LexState := ⟨s.toks.tail, s.endTok⟩

/-- Failures of a parser run: a structured syntax error (a thrown
ParserError), a payload precondition violation (per the spec, fatal and
unrecoverable), or exhaustion of the embedding's recursion fuel. -/
inductive ParseFailure where
  | parserError (loc : Location) (msg : String)
  | payloadViolation (loc : Location)
  | outOfFuel
deriving DecidableEq, Repr

/-- FormatMessage from src/parser.cpp: streams "[", name, ":", line, ":",
column, "] ", msg into an output string, modelling the ostringstream as a
left fold of appends over the streamed pieces. -/
def FormatMessage (loc : Location) (msg : String) : String :=
  List.foldl (· ++ ·) ""
    ["[", loc.Name, ":", Nat.repr loc.Line, ":", Nat.repr loc.Column, "] ", msg]

/-- ParserError from src/parser.cpp: constructed from a location and a
message; its stored runtime_error text is FormatMessage(loc, msg). -/
structure ParserError where
  loc : Location
  msg : String
deriving DecidableEq, Repr

/-- The what() text of a ParserError, set by its constructor. -/
def ParserError.what (e : ParserError) : String := FormatMessage e.loc e.msg

/-- Parser::Error: raise a ParserError for the given location and message. -/
def Error (loc : Location) (msg : String) : ParseFailure :=
  .parserError loc msg

/-- Parser::Check(kind): inspect the current token without advancing; on a
kind mismatch raise an error at the offending token's location with an
expectation message, else return the token and the unchanged state. -/
def Check (k : Tag) (s : LexState) : Except ParseFailure (Token × LexState) :=
  let tk := s.current
  if tk.tag = k then .ok (tk, s)
  else .error (Error tk.loc ("unexpected " ++ tokenStr tk ++ ", expecting " ++ tagStr k))

/-- Parser::Expect(kind): advance to the next token, then Check(kind). -/
def Expect (k : Tag) (s : LexState) : Except ParseFailure (Token × LexState) :=
  Check k s.next

/-- Payload read that fails with a precondition violation on a wrong-kind
token, mirroring Token::GetIdent misuse. -/
def getIdent (tk : Token) : Except ParseFailure String :=
  match tk.GetIdent with
  | some s => .ok s
  | none => .error (.payloadViolation tk.loc)

/-- Payload read for string literals, as getIdent. -/
def getString (tk : Token) : Except ParseFailure String :=
  match tk.GetString with
  | some s => .ok s
  | none => .error (.payloadViolation tk.loc)

/-- Binary operator kinds of BinaryExpr. -/
inductive BinKind where
  | ADD | SUB | MUL | EQUALS
deriving DecidableEq, Repr

/-- Expression AST: RefExpr, IntExpr, CallExpr, BinaryExpr. -/
inductive Expr where
  | ref (name : String)
  | int (v : Nat)
  | call (callee : Expr) (args : List Expr)
  | binary (k : BinKind) (lhs : Expr) (rhs : Expr)

/-- Statement AST: ExprStmt, ReturnStmt, WhileStmt, IfStmt, LetStmt,
BlockStmt. LetStmt stores a single (name, type) pair and the initializer,
as the std::pair the source declares. -/
inductive Stmt where
  | exprStmt (e : Expr)
  | returnStmt (e : Expr)
  | whileStmt (cond : Expr) (body : Stmt)
  | ifStmt (cond : Expr) (thenStmt : Stmt) (elseStmt : Option Stmt)
  | letStmt (varDec : String × String) (varVal : Expr)
  | blockStmt (body : List Stmt)

mutual

/-- Parser::ParseTermExpr: identifier to RefExpr, integer literal to
IntExpr, anything else is a syntax error expecting a term. -/
def ParseTermExpr (fuel : Nat) (s : LexState) :
    Except ParseFailure (Expr × LexState) :=
  match fuel with
  | 0 => .error .outOfFuel
  | _ + 1 =>
    let tk := s.current
    match tk.data with
    | .IDENT ident => .ok (.ref ident, s.next)
    | .INT val => .ok (.int val, s.next)
    | _ =>
      .error (Error tk.loc ("unexpected " ++ tokenStr tk ++ ", expecting term"))

/-- Parser::ParseCallExpr: a term followed by zero or more parenthesized
argument lists, each applied to the previous callee. -/
def ParseCallExpr (fuel : Nat) (s : LexState) :
    Except ParseFailure (Expr × LexState) :=
  match fuel with
  | 0 => .error .outOfFuel
  | fuel + 1 => do
    let (callee, s) ← ParseTermExpr fuel s
    ParseCallExprLoop fuel callee s

/-- The while loop of ParseCallExpr: as long as the current token is an
open paren, parse an argument list, check and consume the close paren, and
wrap the previous callee in a CallExpr. -/
def ParseCallExprLoop (fuel : Nat) (callee : Expr) (s : LexState) :
    Except ParseFailure (Expr × LexState) :=
  match fuel with
  | 0 => .error .outOfFuel
  | fuel + 1 =>
    if s.current.Is .LPAREN then do
      let (args, s) ← ParseCallArgs fuel [] s
      let (_, s) ← Check .RPAREN s
      ParseCallExprLoop fuel (.call callee args) s.next
    else .ok (callee, s)

/-- The argument-list loop of ParseCallExpr: advance (consuming the paren
or comma), stop on a close paren, otherwise parse an expression and
continue only on a comma. -/
def ParseCallArgs (fuel : Nat) (args : List Expr) (s : LexState) :
    Except ParseFailure (List Expr × LexState) :=
  match fuel with
  | 0 => .error .outOfFuel
  | fuel + 1 =>
    let s := s.next
    if s.current.Is .RPAREN then .ok (args, s)
    else do
      let (e, s) ← ParseExpr fuel s
      let args := args ++ [e]
      if s.current.Is .COMMA then ParseCallArgs fuel args s
      else .ok (args, s)

/-- Parser::ParseMulExpr: left-associative multiplication over call
expressions. -/
def ParseMulExpr (fuel : Nat) (s : LexState) :
    Except ParseFailure (Expr × LexState) :=
  match fuel with
  | 0 => .error .outOfFuel
  | fuel + 1 => do
    let (term, s) ← ParseCallExpr fuel s
    ParseMulLoop fuel term s

/-- The while loop of ParseMulExpr. -/
def ParseMulLoop (fuel : Nat) (term : Expr) (s : LexState) :
    Except ParseFailure (Expr × LexState) :=
  match fuel with
  | 0 => .error .outOfFuel
  | fuel + 1 =>
    if s.current.Is .MUL then do
      let (rhs, s) ← ParseCallExpr fuel s.next
      ParseMulLoop fuel (.binary .MUL term rhs) s
    else .ok (term, s)

/-- Parser::ParseAddSubExpr: left-associative addition and subtraction
over multiplicative expressions, the operator decided per token. -/
def ParseAddSubExpr (fuel : Nat) (s : LexState) :
    Except ParseFailure (Expr × LexState) :=
  match fuel with
  | 0 => .error .outOfFuel
  | fuel + 1 => do
    let (term, s) ← ParseMulExpr fuel s
    ParseAddSubLoop fuel term s

/-- The while loop of ParseAddSubExpr. -/
def ParseAddSubLoop (fuel : Nat) (term : Expr) (s : LexState) :
    Except ParseFailure (Expr × LexState) :=
  match fuel with
  | 0 => .error .outOfFuel
  | fuel + 1 =>
    if s.current.Is .PLUS || s.current.Is .SUB then
      let isAddition := s.current.Is .PLUS
      do
        let (rhs, s) ← ParseMulExpr fuel s.next
        if isAddition then
          ParseAddSubLoop fuel (.binary .ADD term rhs) s
        else
          ParseAddSubLoop fuel (.binary .SUB term rhs) s
    else .ok (term, s)

/-- Parser::ParseEqualityExpr: left-associative equality over
additive expressions; lowest precedence. -/
def ParseEqualityExpr (fuel : Nat) (s : LexState) :
    Except ParseFailure (Expr × LexState) :=
  match fuel with
  | 0 => .error .outOfFuel
  | fuel + 1 => do
    let (term, s) ← ParseAddSubExpr fuel s
    ParseEqualityLoop fuel term s

/-- The while loop of ParseEqualityExpr. -/
def ParseEqualityLoop (fuel : Nat) (term : Expr) (s : LexState) :
    Except ParseFailure (Expr × LexState) :=
  match fuel with
  | 0 => .error .outOfFuel
  | fuel + 1 =>
    if s.current.Is .EQUALS then do
      let (rhs, s) ← ParseAddSubExpr fuel s.next
      ParseEqualityLoop fuel (.binary .EQUALS term rhs) s
    else .ok (term, s)

/-- Modelled from the spec: ParseExpr (declared in parser.h, not under
src/) is the entry point for all expression contexts and delegates to
ParseEqualityExpr, the lowest-precedence level. -/
def ParseExpr (fuel : Nat) (s : LexState) :
    Except ParseFailure (Expr × LexState) :=
  match fuel with
  | 0 => .error .outOfFuel
  | fuel + 1 => ParseEqualityExpr fuel s

end

/-- A top-level item of a Module: a ProtoDecl (no body, names a host
primitive), a FuncDecl (with a body block), or a plain statement. -/
inductive TopLevelStmt where
  | protoDecl (name : String) (args : List (String × String))
      (type : String) (primitive : String)
  | funcDecl (name : String) (args : List (String × String))
      (type : String) (block : Stmt)
  | stmt (s : Stmt)

mutual

/-- Parser::ParseStmt: dispatch on the current token kind; the default
case parses an expression statement and requires a terminating SEMI,
consumed before returning. -/
def ParseStmt (fuel : Nat) (s : LexState) :
    Except ParseFailure (Stmt × LexState) :=
  match fuel with
  | 0 => .error .outOfFuel
  | fuel + 1 =>
    match s.current.tag with
    | .RETURN => ParseReturnStmt fuel s
    | .WHILE => ParseWhileStmt fuel s
    | .IF => ParseIfStmt fuel s
    | .LET => ParseLetStmt fuel s
    | .LBRACE => ParseBlockStmt fuel s
    | _ => do
      let (e, s) ← ParseExpr fuel s
      let (_, s) ← Check .SEMI s
      .ok (.exprStmt e, s.next)

/-- Parser::ParseBlockStmt: an open brace, statements until a close brace,
then the close brace is checked and consumed. -/
def ParseBlockStmt (fuel : Nat) (s : LexState) :
    Except ParseFailure (Stmt × LexState) :=
  match fuel with
  | 0 => .error .outOfFuel
  | fuel + 1 => do
    let (_, s) ← Check .LBRACE s
    let s := s.next
    let (body, s) ← ParseBlockBody fuel [] s
    let (_, s) ← Check .RBRACE s
    .ok (.blockStmt body, s.next)

/-- The statement loop of ParseBlockStmt: parse statements while the
current token is not a close brace. -/
def ParseBlockBody (fuel : Nat) (acc : List Stmt) (s : LexState) :
    Except ParseFailure (List Stmt × LexState) :=
  match fuel with
  | 0 => .error .outOfFuel
  | fuel + 1 =>
    if s.current.Is .RBRACE then .ok (acc, s)
    else do
      let (st, s) ← ParseStmt fuel s
      ParseBlockBody fuel (acc ++ [st]) s

/-- Parser::ParseReturnStmt: the RETURN keyword, an expression, and a
required SEMI, consumed. -/
def ParseReturnStmt (fuel : Nat) (s : LexState) :
    Except ParseFailure (Stmt × LexState) :=
  match fuel with
  | 0 => .error .outOfFuel
  | fuel + 1 => do
    let (_, s) ← Check .RETURN s
    let s := s.next
    let (e, s) ← ParseExpr fuel s
    let (_, s) ← Check .SEMI s
    .ok (.returnStmt e, s.next)

/-- Parser::ParseWhileStmt: WHILE, a parenthesized condition, then one
statement as the body. -/
def ParseWhileStmt (fuel : Nat) (s : LexState) :
    Except ParseFailure (Stmt × LexState) :=
  match fuel with
  | 0 => .error .outOfFuel
  | fuel + 1 => do
    let (_, s) ← Check .WHILE s
    let (_, s) ← Expect .LPAREN s
    let s := s.next
    let (cond, s) ← ParseExpr fuel s
    let (_, s) ← Check .RPAREN s
    let s := s.next
    let (body, s) ← ParseStmt fuel s
    .ok (.whileStmt cond body, s)

/-- Parser::ParseIfStmt: IF, a parenthesized condition, one statement as
the then-branch, and an optional ELSE followed by one more statement. -/
def ParseIfStmt (fuel : Nat) (s : LexState) :
    Except ParseFailure (Stmt × LexState) :=
  match fuel with
  | 0 => .error .outOfFuel
  | fuel + 1 => do
    let (_, s) ← Check .IF s
    let (_, s) ← Expect .LPAREN s
    let s := s.next
    let (cond, s) ← ParseExpr fuel s
    let (_, s) ← Check .RPAREN s
    let s := s.next
    let (thenStmt, s) ← ParseStmt fuel s
    if s.current.tag = .ELSE then do
      let s := s.next
      let (elseStmt, s) ← ParseStmt fuel s
      .ok (.ifStmt cond thenStmt (some elseStmt), s)
    else
      .ok (.ifStmt cond thenStmt none, s)

/-- Parser::ParseLetStmt, line for line from src/parser.cpp: Check(LET)
does not advance, so the following Current().GetIdent() reads the ident
payload of the LET keyword token itself (a payload precondition
violation); the subsequent Expect(IDENT) would then take the variable
name as the type, and no COLON is ever consumed.  The source line
`varDec.emplace_back(arg, type)` names an undeclared identifier `arg`
(and std::pair has no emplace_back), so the construction below uses the
two strings the surrounding lines produced; it is unreachable because
getIdent fails first. -/
def ParseLetStmt (fuel : Nat) (s : LexState) :
    Except ParseFailure (Stmt × LexState) :=
  match fuel with
  | 0 => .error .outOfFuel
  | fuel + 1 => do
    let (_, s) ← Check .LET s
    let name ← getIdent s.current
    let (typeTok, s) ← Expect .IDENT s
    let type ← getIdent typeTok
    let varDec := (name, type)
    let (_, s) ← Expect .EQUAL s
    let s := s.next
    let (varVal, s) ← ParseExpr fuel s
    .ok (.letStmt varDec varVal, s)

/-- The parameter-list loop of Parser::ParseModule: the loop condition
advances (past the LPAREN or a COMMA) and stops on RPAREN; otherwise it
reads the parameter name from the current token, expects a COLON and a
type identifier, and continues only if the next token is a COMMA. -/
def ParseParams (fuel : Nat) (args : List (String × String)) (s : LexState) :
    Except ParseFailure (List (String × String) × LexState) :=
  match fuel with
  | 0 => .error .outOfFuel
  | fuel + 1 =>
    let s := s.next
    if s.current.Is .RPAREN then .ok (args, s)
    else do
      let arg ← getIdent s.current
      let (_, s) ← Expect .COLON s
      let (typeTok, s) ← Expect .IDENT s
      let type ← getIdent typeTok
      let args := args ++ [(arg, type)]
      let s := s.next
      if s.current.Is .COMMA then ParseParams fuel args s
      else .ok (args, s)

/-- Parser::ParseModule: loop until the token source is exhausted; FUNC
starts a declaration (name, parameter list, return type, then either a
primitive-binding string giving a ProtoDecl, or a block giving a
FuncDecl); any other token parses as a top-level statement. -/
def ParseModule (fuel : Nat) (s : LexState) :
    Except ParseFailure (List TopLevelStmt × LexState) :=
  match fuel with
  | 0 => .error .outOfFuel
  | fuel + 1 =>
    let tk := s.current
    if tk.tag = .END then .ok ([], s)
    else if tk.Is .FUNC then do
      let (nameTok, s) ← Expect .IDENT s
      let name ← getIdent nameTok
      let (_, s) ← Expect .LPAREN s
      let (args, s) ← ParseParams fuel [] s
      let (_, s) ← Check .RPAREN s
      let (_, s) ← Expect .COLON s
      let (typeTok, s) ← Expect .IDENT s
      let type ← getIdent typeTok
      let s := s.next
      if s.current.Is .EQUAL then do
        let (strTok, s) ← Expect .STRING s
        let primitive ← getString strTok
        let s := s.next
        let (rest, s) ← ParseModule fuel s
        .ok (.protoDecl name args type primitive :: rest, s)
      else do
        let (block, s) ← ParseBlockStmt fuel s
        let (rest, s) ← ParseModule fuel s
        .ok (.funcDecl name args type block :: rest, s)
    else do
      let (st, s) ← ParseStmt fuel s
      let (rest, s) ← ParseModule fuel s
      .ok (.stmt st :: rest, s)

end

/-- Bytecode program from src/program.h: a byte buffer built once. -/
structure Program where
  code : List Nat

/-- Program::Read from src/program.h: with w playing sizeof(T), copy w
bytes starting at pc (the memcpy) and advance pc by w; the assert that
pc + w fits in the buffer fails the read otherwise. -/
def Program.Read (p : Program) (w : Nat) (pc : Nat) :
    Option (List Nat × Nat) :=
  if pc + w ≤ p.code.length then
    some ((p.code.drop pc).take w, pc + w)
  else
    none

/-- Interpreter context as the runtime primitives see it, modelled from
the spec (interp.h is not under src/): an operand stack of 64-bit
integers and the text written to standard output. -/
structure Interp where
  stack : List Int
  output : String

/-- Modelled from the spec: Interp::PeekInt reads the top of the operand
stack without popping; empty stack is a fatal bounds violation. -/
def Interp.PeekInt (i : Interp) : Option Int := i.stack.head?

/-- Modelled from the spec: Interp::Push pushes one value onto the
operand stack. -/
def Interp.Push (i : Interp) (v : Int) : Interp :=
  { i with stack := v :: i.stack }

/-- PrintInt from src/runtime.cpp: peek the top integer, write its
decimal form to standard output, then push the same value back. -/
def PrintInt (i : Interp) : Option Interp :=
  match i.PeekInt with
  | none => none
  | some v =>
    let i := { i with output := i.output ++ Int.repr v }
    some (i.Push v)

/-! ## Theorems -/

/-- The expression a single term token parses to, when it is a term token
(identifier or integer literal). -/
def termOf (t : Token) : Option Expr :=
  match t.data with
  | .IDENT s => some (.ref s)
  | .INT n => some (.int n)
  | _ => none

/-- C1: ParseLetStmt does not behave as specified on a well-formed let
statement.  On the token stream for `let x : int = 5;`, Check(LET) leaves
the LET keyword as the current token, so Current().GetIdent() reads the
identifier payload of the LET token itself: a payload precondition
violation at the LET keyword's location, and no LetStmt recording
("x", "int") is ever produced. -/
theorem parseLetStmt_payload_violation_on_wellformed_let :
    ParseLetStmt 64
      ⟨[⟨.LET, ⟨"t", 1, 1⟩⟩, ⟨.IDENT "x", ⟨"t", 1, 5⟩⟩, ⟨.COLON, ⟨"t", 1, 7⟩⟩,
        ⟨.IDENT "int", ⟨"t", 1, 9⟩⟩, ⟨.EQUAL, ⟨"t", 1, 13⟩⟩,
        ⟨.INT 5, ⟨"t", 1, 15⟩⟩, ⟨.SEMI, ⟨"t", 1, 16⟩⟩],
        ⟨.END, ⟨"t", 1, 17⟩⟩⟩ =
      .error (.payloadViolation ⟨"t", 1, 1⟩) := by
  rfl

/-- C2: Program::Read with pc + w ≤ buffer size returns exactly the w
bytes starting at pc and advances pc by w; whenever pc + w exceeds the
buffer size it fails, never performing a truncated or out-of-bounds
read. -/
theorem program_read_bounds (p : Program) (w pc : Nat) :
    (pc + w ≤ p.code.length →
      p.Read w pc = some ((p.code.drop pc).take w, pc + w) ∧
      ((p.code.drop pc).take w).length = w ∧
      ∀ i, i < w → ((p.code.drop pc).take w)[i]? = p.code[pc + i]?) ∧
    (p.code.length < pc + w → p.Read w pc = none) := by
  constructor
  · intro h
    refine ⟨by simp [Program.Read, h], ?_, ?_⟩
    · simp
      omega
    · intro i hi
      rw [List.getElem?_take_of_lt hi, List.getElem?_drop]
  · intro h
    simp [Program.Read]
    omega

/-- Witness for C2 at the concrete program [7, 8, 9]: the read of width 2
at offset 1 succeeds with the two bytes at offsets 1 and 2 and the
advanced offset 3, and the read of width 2 at offset 2 fails. -/
theorem program_read_bounds_witness :
    ((Program.mk [7, 8, 9]).Read 2 1 =
        some (((Program.mk [7, 8, 9]).code.drop 1).take 2, 1 + 2) ∧
      (((Program.mk [7, 8, 9]).code.drop 1).take 2).length = 2 ∧
      ∀ i, i < 2 → (((Program.mk [7, 8, 9]).code.drop 1).take 2)[i]? =
        (Program.mk [7, 8, 9]).code[1 + i]?) ∧
    (Program.mk [7, 8, 9]).Read 2 2 = none :=
  ⟨(program_read_bounds ⟨[7, 8, 9]⟩ 2 1).1 (by decide),
   (program_read_bounds ⟨[7, 8, 9]⟩ 2 2).2 (by decide)⟩

/-- C3: on the malformed input `func f(` (FUNC, IDENT, LPAREN, then
end-of-stream) the parser does not raise a SyntaxError naming the
expected RPAREN or IDENT: the parameter-list loop calls GetIdent on the
end-of-stream token, a payload precondition violation at the end token's
location. -/
theorem parseModule_func_f_lparen_aborts :
    ParseModule 64
      ⟨[⟨.FUNC, ⟨"t", 1, 1⟩⟩, ⟨.IDENT "f", ⟨"t", 1, 6⟩⟩,
        ⟨.LPAREN, ⟨"t", 1, 7⟩⟩], ⟨.END, ⟨"t", 1, 8⟩⟩⟩ =
      .error (.payloadViolation ⟨"t", 1, 8⟩) := by
  rfl

/-- C4: for every token stream a + b * c built from term tokens a, b, c
(any identifiers or integer literals, at any locations), the parser
builds BinaryExpr(ADD, a, BinaryExpr(MUL, b, c)): multiplication binds
tighter than addition. -/
theorem add_mul_precedence (ta tb tc : Token) (ea eb ec : Expr)
    (lp lm ls : Location) (endTok : Token)
    (ha : termOf ta = some ea) (hb : termOf tb = some eb)
    (hc : termOf tc = some ec) :
    ParseExpr 64 ⟨[ta, ⟨.PLUS, lp⟩, tb, ⟨.MUL, lm⟩, tc, ⟨.SEMI, ls⟩], endTok⟩ =
      .ok (.binary .ADD ea (.binary .MUL eb ec),
        ⟨[⟨.SEMI, ls⟩], endTok⟩) := by
  obtain ⟨da, la⟩ := ta
  obtain ⟨db, lb⟩ := tb
  obtain ⟨dc, lc⟩ := tc
  cases da <;> simp [termOf] at ha
  all_goals cases db <;> simp [termOf] at hb
  all_goals cases dc <;> simp [termOf] at hc
  all_goals subst ha; subst hb; subst hc; rfl

/-- Witness for C4: `a + b * 4` parses to ADD(ref a, MUL(ref b, int 4)). -/
theorem add_mul_precedence_witness :
    ParseExpr 64
      ⟨[⟨.IDENT "a", ⟨"t", 1, 1⟩⟩, ⟨.PLUS, ⟨"t", 1, 3⟩⟩,
        ⟨.IDENT "b", ⟨"t", 1, 5⟩⟩, ⟨.MUL, ⟨"t", 1, 7⟩⟩,
        ⟨.INT 4, ⟨"t", 1, 9⟩⟩, ⟨.SEMI, ⟨"t", 1, 10⟩⟩],
        ⟨.END, ⟨"t", 1, 11⟩⟩⟩ =
      .ok (.binary .ADD (.ref "a") (.binary .MUL (.ref "b") (.int 4)),
        ⟨[⟨.SEMI, ⟨"t", 1, 10⟩⟩], ⟨.END, ⟨"t", 1, 11⟩⟩⟩) :=
  add_mul_precedence _ _ _ _ _ _ _ _ _ _ rfl rfl rfl

/-- C5: for every token stream a - b - c built from term tokens a, b, c,
the parser builds the left-associative tree
BinaryExpr(SUB, BinaryExpr(SUB, a, b), c). -/
theorem sub_sub_left_associative (ta tb tc : Token) (ea eb ec : Expr)
    (l1 l2 ls : Location) (endTok : Token)
    (ha : termOf ta = some ea) (hb : termOf tb = some eb)
    (hc : termOf tc = some ec) :
    ParseExpr 64 ⟨[ta, ⟨.SUB, l1⟩, tb, ⟨.SUB, l2⟩, tc, ⟨.SEMI, ls⟩], endTok⟩ =
      .ok (.binary .SUB (.binary .SUB ea eb) ec,
        ⟨[⟨.SEMI, ls⟩], endTok⟩) := by
  obtain ⟨da, la⟩ := ta
  obtain ⟨db, lb⟩ := tb
  obtain ⟨dc, lc⟩ := tc
  cases da <;> simp [termOf] at ha
  all_goals cases db <;> simp [termOf] at hb
  all_goals cases dc <;> simp [termOf] at hc
  all_goals subst ha; subst hb; subst hc; rfl

/-- Witness for C5: `9 - b - c` parses to SUB(SUB(int 9, ref b), ref c). -/
theorem sub_sub_left_associative_witness :
    ParseExpr 64
      ⟨[⟨.INT 9, ⟨"t", 1, 1⟩⟩, ⟨.SUB, ⟨"t", 1, 3⟩⟩,
        ⟨.IDENT "b", ⟨"t", 1, 5⟩⟩, ⟨.SUB, ⟨"t", 1, 7⟩⟩,
        ⟨.IDENT "c", ⟨"t", 1, 9⟩⟩, ⟨.SEMI, ⟨"t", 1, 10⟩⟩],
        ⟨.END, ⟨"t", 1, 11⟩⟩⟩ =
      .ok (.binary .SUB (.binary .SUB (.int 9) (.ref "b")) (.ref "c"),
        ⟨[⟨.SEMI, ⟨"t", 1, 10⟩⟩], ⟨.END, ⟨"t", 1, 11⟩⟩⟩) :=
  sub_sub_left_associative _ _ _ _ _ _ _ _ _ _ rfl rfl rfl

/-- C6: for every token stream a == b + c built from term tokens a, b, c,
the parser builds BinaryExpr(EQUALS, a, BinaryExpr(ADD, b, c)), so
equality binds loosest; moreover ParseExpr, the entry point of every
expression context, is exactly ParseEqualityExpr. -/
theorem equality_lowest_precedence (ta tb tc : Token) (ea eb ec : Expr)
    (le lp ls : Location) (endTok : Token)
    (ha : termOf ta = some ea) (hb : termOf tb = some eb)
    (hc : termOf tc = some ec) :
    ParseExpr 64
        ⟨[ta, ⟨.EQUALS, le⟩, tb, ⟨.PLUS, lp⟩, tc, ⟨.SEMI, ls⟩], endTok⟩ =
      .ok (.binary .EQUALS ea (.binary .ADD eb ec),
        ⟨[⟨.SEMI, ls⟩], endTok⟩) ∧
    ∀ (fuel : Nat) (s : LexState),
      ParseExpr (fuel + 1) s = ParseEqualityExpr fuel s := by
  constructor
  · obtain ⟨da, la⟩ := ta
    obtain ⟨db, lb⟩ := tb
    obtain ⟨dc, lc⟩ := tc
    cases da <;> simp [termOf] at ha
    all_goals cases db <;> simp [termOf] at hb
    all_goals cases dc <;> simp [termOf] at hc
    all_goals subst ha; subst hb; subst hc; rfl
  · intro fuel s
    rfl

/-- Witness for C6: `a == b + c` parses to EQUALS(ref a, ADD(ref b, ref c)). -/
theorem equality_lowest_precedence_witness :
    ParseExpr 64
      ⟨[⟨.IDENT "a", ⟨"t", 1, 1⟩⟩, ⟨.EQUALS, ⟨"t", 1, 3⟩⟩,
        ⟨.IDENT "b", ⟨"t", 1, 6⟩⟩, ⟨.PLUS, ⟨"t", 1, 8⟩⟩,
        ⟨.IDENT "c", ⟨"t", 1, 10⟩⟩, ⟨.SEMI, ⟨"t", 1, 11⟩⟩],
        ⟨.END, ⟨"t", 1, 12⟩⟩⟩ =
      .ok (.binary .EQUALS (.ref "a") (.binary .ADD (.ref "b") (.ref "c")),
        ⟨[⟨.SEMI, ⟨"t", 1, 11⟩⟩], ⟨.END, ⟨"t", 1, 12⟩⟩⟩) :=
  (equality_lowest_precedence
    ⟨.IDENT "a", ⟨"t", 1, 1⟩⟩ ⟨.IDENT "b", ⟨"t", 1, 6⟩⟩
    ⟨.IDENT "c", ⟨"t", 1, 10⟩⟩ (.ref "a") (.ref "b") (.ref "c")
    ⟨"t", 1, 3⟩ ⟨"t", 1, 8⟩ ⟨"t", 1, 11⟩ ⟨.END, ⟨"t", 1, 12⟩⟩
    rfl rfl rfl).1

/-- C7: for every token stream f(x)(y) with f an identifier and x, y term
tokens, the parser builds CallExpr(CallExpr(RefExpr(f), [x]), [y]):
argument lists apply left-associatively, each CallExpr becoming the
callee of the next application. -/
theorem call_chain_left_associative (f : String) (tx ty : Token)
    (ex ey : Expr) (lf l1 l2 l3 l4 ls : Location) (endTok : Token)
    (hx : termOf tx = some ex) (hy : termOf ty = some ey) :
    ParseExpr 64
        ⟨[⟨.IDENT f, lf⟩, ⟨.LPAREN, l1⟩, tx, ⟨.RPAREN, l2⟩,
          ⟨.LPAREN, l3⟩, ty, ⟨.RPAREN, l4⟩, ⟨.SEMI, ls⟩], endTok⟩ =
      .ok (.call (.call (.ref f) [ex]) [ey],
        ⟨[⟨.SEMI, ls⟩], endTok⟩) := by
  obtain ⟨dx, lx⟩ := tx
  obtain ⟨dy, ly⟩ := ty
  cases dx <;> simp [termOf] at hx
  all_goals cases dy <;> simp [termOf] at hy
  all_goals subst hx; subst hy; rfl

/-- Witness for C7: `f(x)(3)` parses to
CallExpr(CallExpr(RefExpr f, [ref x]), [int 3]). -/
theorem call_chain_left_associative_witness :
    ParseExpr 64
      ⟨[⟨.IDENT "f", ⟨"t", 1, 1⟩⟩, ⟨.LPAREN, ⟨"t", 1, 2⟩⟩,
        ⟨.IDENT "x", ⟨"t", 1, 3⟩⟩, ⟨.RPAREN, ⟨"t", 1, 4⟩⟩,
        ⟨.LPAREN, ⟨"t", 1, 5⟩⟩, ⟨.INT 3, ⟨"t", 1, 6⟩⟩,
        ⟨.RPAREN, ⟨"t", 1, 7⟩⟩, ⟨.SEMI, ⟨"t", 1, 8⟩⟩],
        ⟨.END, ⟨"t", 1, 9⟩⟩⟩ =
      .ok (.call (.call (.ref "f") [.ref "x"]) [.int 3],
        ⟨[⟨.SEMI, ⟨"t", 1, 8⟩⟩], ⟨.END, ⟨"t", 1, 9⟩⟩⟩) :=
  call_chain_left_associative _ _ _ _ _ _ _ _ _ _ _ _ rfl rfl

/-- C8: Expect(k) advances and then checks the new current token against
k; Check(k) inspects the current token without advancing, returning it
and the unchanged state on a match and otherwise raising an error at the
offending token's location with an expectation message naming k; and a
statement-level error propagates unchanged out of ParseModule (the first
error aborts the module parse, with no recovery). -/
theorem expect_check_error_policy (k : Tag) (s : LexState) :
    Expect k s = Check k s.next ∧
    (s.current.tag = k → Check k s = .ok (s.current, s)) ∧
    (s.current.tag ≠ k →
      Check k s = .error (.parserError s.current.loc
        ("unexpected " ++ tokenStr s.current ++ ", expecting " ++ tagStr k))) ∧
    ∀ (fuel : Nat) (e : ParseFailure),
      s.current.tag ≠ .END → s.current.tag ≠ .FUNC →
      ParseStmt fuel s = .error e → ParseModule (fuel + 1) s = .error e := by
  refine ⟨rfl, ?_, ?_, ?_⟩
  · intro h
    simp [Check, h]
  · intro h
    simp [Check, Error, h]
  · intro fuel e hEnd hFunc hStmt
    rw [ParseModule]
    simp [Token.Is, beq_iff_eq, hEnd, hFunc, hStmt]
    rfl

/-- Witness for C8: checking for SEMI at an LPAREN token fails with the
expectation message at the LPAREN's location, and checking for LPAREN
there succeeds without advancing. -/
theorem expect_check_error_policy_witness :
    Check .SEMI ⟨[⟨.LPAREN, ⟨"t", 2, 3⟩⟩], ⟨.END, ⟨"t", 2, 4⟩⟩⟩ =
      .error (.parserError ⟨"t", 2, 3⟩ "unexpected LPAREN, expecting SEMI") ∧
    Check .LPAREN ⟨[⟨.LPAREN, ⟨"t", 2, 3⟩⟩], ⟨.END, ⟨"t", 2, 4⟩⟩⟩ =
      .ok (⟨.LPAREN, ⟨"t", 2, 3⟩⟩,
        ⟨[⟨.LPAREN, ⟨"t", 2, 3⟩⟩], ⟨.END, ⟨"t", 2, 4⟩⟩⟩) :=
  ⟨(expect_check_error_policy .SEMI
      ⟨[⟨.LPAREN, ⟨"t", 2, 3⟩⟩], ⟨.END, ⟨"t", 2, 4⟩⟩⟩).2.2.1 (by decide),
   (expect_check_error_policy .LPAREN
      ⟨[⟨.LPAREN, ⟨"t", 2, 3⟩⟩], ⟨.END, ⟨"t", 2, 4⟩⟩⟩).2.1 rfl⟩

/-- C9: every ParserError renders its diagnostic exactly as
[source-name:line:column] message, for every location and message. -/
theorem parser_error_diagnostic_shape (loc : Location) (msg : String) :
    (ParserError.mk loc msg).what =
      "[" ++ loc.Name ++ ":" ++ Nat.repr loc.Line ++ ":"
        ++ Nat.repr loc.Column ++ "] " ++ msg := by
  rfl

/-- C10: on any operand stack with top value v, print_int writes v's
decimal form to standard output and pushes a copy of v without popping,
so the stack grows by exactly one element and its top two elements both
equal v. -/
theorem printInt_frame_effect (v : Int) (rest : List Int) (out : String) :
    PrintInt ⟨v :: rest, out⟩ = some ⟨v :: v :: rest, out ++ Int.repr v⟩ ∧
    (v :: v :: rest).length = (v :: rest).length + 1 := by
  exact ⟨rfl, rfl⟩

end Imp
